import Mathlib

/-
Verification of the aas-benchmark-observatory core (report normalization,
capability classification, aggregation and regression detection) against its
natural-language specification.

The Python sources are embedded shallowly:

  * JSON numbers become `ℚ`; JSON documents become the inductive `J`;
    dictionaries become association lists with first-match lookup (`dget`)
    and insert-or-overwrite (`dictInsert`, which keeps the original position
    of an overwritten key, as CPython dicts do).
  * `scripts/validate_report.py` is embedded as `canonical_operation_id` and
    `validate_report`.
  * `scripts/aggregate.py` is embedded as `read-file` plumbing over an
    explicit directory model (`ResultDir`/`FileData`), `build_sdk_entry`,
    `build_server_entry`, `aggregate`, `compareOp` and `compute_regressions`.
    `math.sqrt` is kept as an explicit function parameter `sqrt : ℚ → ℚ`;
    the theorems below assume nothing about it beyond nonnegativity, which
    the real square root satisfies on the nonnegative arguments that occur.
    `sqrtQ` is a concrete stand-in used to instantiate witnesses; it is exact
    on perfect squares.
  * `normalize_pipeline_report` and `derive_capabilities` exist in the
    repository (its unit tests call them) but their definitions are not under
    src/; they are modelled from the specification, as marked in their doc
    comments.
-/

set_option maxRecDepth 4000

namespace AasObservatory

/-! ## Canonical operation ids (scripts/validate_report.py) -/

/-- ASCII class `[a-z0-9]`, the left class of the camel-case boundary regex
in `canonical_operation_id`. -/
def isAsciiLowerOrDigit (c : Char) : Bool :=
  (97 ≤ c.toNat && c.toNat ≤ 122) || (48 ≤ c.toNat && c.toNat ≤ 57)

/-- ASCII class `[A-Z]`, the right class of the boundary regex. -/
def isAsciiUpper (c : Char) : Bool := 65 ≤ c.toNat && c.toNat ≤ 90

/-- One left-to-right scan of `re.sub(r"([a-z0-9])([A-Z])", r"\1_\2", s)`.
`c1` is the character under the cursor and the list is the rest of the
string.  After a match the regex engine resumes after both matched
characters; since an uppercase character can never begin a new match,
resuming the scan at `c2` is the same thing, and keeps the recursion
structural. -/
def camelSubAux : Char → List Char → List Char
  | c1, [] => [c1]
  | c1, c2 :: rest =>
    if isAsciiLowerOrDigit c1 && isAsciiUpper c2 then
      c1 :: '_' :: camelSubAux c2 rest
    else
      c1 :: camelSubAux c2 rest

/-- The full regex substitution pass of `canonical_operation_id`. -/
def camelSub : List Char → List Char
  | [] => []
  | c :: rest => camelSubAux c rest

/-- Python `str.replace("-", "_")`, character by character. -/
def dashToUnderscore (c : Char) : Char := if c = '-' then '_' else c

/-- Python `str.lower()` restricted to ASCII (operation keys are ASCII). -/
def asciiLowerChar (c : Char) : Char :=
  if isAsciiUpper c then Char.ofNat (c.toNat + 32) else c

/-- The generic transform of `canonical_operation_id`: camel-case boundary
splitting, then hyphen replacement, then lowercasing. -/
def snakeTransform (s : String) : String :=
  String.mk (((camelSub s.data).map dashToUnderscore).map asciiLowerChar)

/-- The `explicit` alias dict of `canonical_operation_id`; dict membership
plus indexing rendered as a decidable case chain over the same pairs. -/
def explicitAlias (raw_op : String) : Option String :=
  if raw_op = "deserializeXml" then some "deserialize_xml"
  else if raw_op = "serializeXml" then some "serialize_xml"
  else if raw_op = "deserializexml" then some "deserialize_xml"
  else if raw_op = "serializexml" then some "serialize_xml"
  else if raw_op = "aasxExtract" then some "aasx_extract"
  else if raw_op = "aasxRepackage" then some "aasx_repackage"
  else if raw_op = "aasxextract" then some "aasx_extract"
  else if raw_op = "aasxrepackage" then some "aasx_repackage"
  else none

/-- The `dense_map` alias dict of `canonical_operation_id` (lowercase dense
forms recovered after the generic transform). -/
def denseAlias (snake : String) : Option String :=
  if snake = "deserializexml" then some "deserialize_xml"
  else if snake = "serializexml" then some "serialize_xml"
  else if snake = "aasxextract" then some "aasx_extract"
  else if snake = "aasxrepackage" then some "aasx_repackage"
  else none

/-- Embedding of `canonical_operation_id` (scripts/validate_report.py,
lines 20-42): explicit alias table, else generic snake transform, else the
dense alias table on the transformed key. -/
def canonical_operation_id (raw_op : String) : String :=
  match explicitAlias raw_op with
  | some v => v
  | none =>
    match denseAlias (snakeTransform raw_op) with
    | some v => v
    | none => snakeTransform raw_op

/-! ## JSON documents and dictionary primitives -/

/-- Parsed JSON values (the output of `json.load`). -/
inductive J where
  | null
  | bool (b : Bool)
  | num (q : ℚ)
  | str (s : String)
  | arr (elems : List J)
  | obj (fields : List (String × J))

/-- Python `dict.get(k)`: first-match lookup in an association list (keys
are unique in a parsed JSON object, so the first match is the only one). -/
def dget {α : Type} (m : List (String × α)) (k : String) : Option α :=
  match m with
  | [] => none
  | p :: rest => if k = p.1 then some p.2 else dget rest k

/-- Python truthiness of a parsed JSON value (`if env:`): `None`, `False`,
`0`, the empty string, the empty list and the empty dict are falsy. -/
def J.truthy : J → Bool
  | .null => false
  | .bool b => b
  | .num q => if q = 0 then false else true
  | .str s => !(s == "")
  | .arr xs => !xs.isEmpty
  | .obj fs => !fs.isEmpty

/-- Test for the JSON null value (which `dict.get` turns into Python
`None`, indistinguishable from an absent key for value reads). -/
def J.isNull : J → Bool
  | .null => true
  | _ => false

/-- Python `==` between a parsed JSON value and a Python string: only a
JSON string can compare equal. -/
def J.eqStr : J → String → Bool
  | .str s, t => s == t
  | _, _ => false

/-! ## Report validator (scripts/validate_report.py, lines 45-101) -/

/-- Required per-operation fields checked by the validator (line 81-88). -/
def requiredFields : List String :=
  ["operation_id", "operation_track", "sample_count", "measurement_semantics",
   "failure_state", "mean_ns"]

/-- Problem strings for one operation entry: the body of the inner loop of
`validate_report` (lines 66-96).  The Python messages interpolate `repr` of
the offending values; the quoting is elided here, one message per violation
otherwise as in the source. -/
def opEntryErrors (dsName opKey : String) (opEntry : J) : List String :=
  let canonical := canonical_operation_id opKey
  let keyErr :=
    if opKey = canonical then []
    else ["dataset " ++ dsName ++ " contains non-canonical operation key " ++
          opKey ++ " (canonical: " ++ canonical ++ ")"]
  match opEntry with
  | .obj fields =>
    let idErr :=
      match dget fields "operation_id" with
      | some v =>
        if v.isNull then []
        else if v.eqStr canonical then []
        else ["dataset " ++ dsName ++ " operation " ++ opKey ++
              " has mismatched operation_id (expected " ++ canonical ++ ")"]
      | none => []
    let missing := requiredFields.filter (fun k => (dget fields k).isNone)
    let missErr :=
      if missing.isEmpty then []
      else ["dataset " ++ dsName ++ " operation " ++ opKey ++
            " missing required fields: " ++ String.intercalate ", " missing]
    keyErr ++ idErr ++ missErr
  | _ =>
    keyErr ++ ["dataset " ++ dsName ++ " operation " ++ opKey ++ " is not an object"]

/-- Problem strings and operation count for one dataset: the body of the
outer loop of `validate_report` (lines 57-96). -/
def datasetErrors (dsName : String) (entry : J) : List String × Nat :=
  match entry with
  | .obj fields =>
    match dget fields "operations" with
    | some (.obj ops) =>
      if ops.isEmpty then (["dataset " ++ dsName ++ " has no operations"], 0)
      else (ops.foldl (fun acc p => acc ++ opEntryErrors dsName p.1 p.2) [], ops.length)
    | _ => (["dataset " ++ dsName ++ " has no operations"], 0)
  | _ => (["dataset " ++ dsName ++ " is not an object"], 0)

/-- Python `doc.get(k)` on a parsed JSON document (a non-object document,
on which the source would raise before reaching any check modelled here, is
treated as having no fields). -/
def jGetField (doc : J) (k : String) : Option J :=
  match doc with
  | .obj fields => dget fields k
  | _ => none

/-- Embedding of `validate_report` on an already-parsed document (lines
52-101; the parse-failure early return at lines 47-50 happens before this
model begins).  `not isinstance(datasets, dict) or not datasets` collapses
a missing, non-object or empty datasets object into the same early
return. -/
def validate_report (report : J) : List String :=
  match jGetField report "datasets" with
  | some (.obj datasets) =>
    if datasets.isEmpty then ["report must contain at least one dataset"]
    else
      let folded := datasets.foldl
        (fun acc p =>
          (acc.1 ++ (datasetErrors p.1 p.2).1, acc.2 + (datasetErrors p.1 p.2).2))
        (([] : List String), (0 : Nat))
      if folded.2 = 0 then
        folded.1 ++ ["report must contain at least one operation"]
      else folded.1
  | _ => ["report must contain at least one dataset"]

/-- The datasets object of a report, when present and an object (the shape
the validator's early return tests). -/
def hasDatasets (report : J) : Option (List (String × J)) :=
  match jGetField report "datasets" with
  | some (.obj ds) => some ds
  | _ => none

/-! ## Typed report model

The fields of a report document that `aggregate.py` actually reads;
metadata beyond `metadata.name` is pass-through only and elided. -/

/-- One operation measurement (`OperationResult` in the spec), restricted
to the fields the aggregation core reads; numbers are `ℚ`. -/
structure OpEntry where
  operation_id : Option String := none
  operation_track : Option String := none
  sample_count : Option ℚ := none
  measurement_semantics : Option String := none
  failure_state : Option String := none
  iterations : Option ℚ := none
  mean_ns : Option ℚ := none
  stddev_ns : Option ℚ := none
deriving DecidableEq

/-- One dataset's operations mapping. -/
structure DatasetResult where
  operations : List (String × OpEntry) := []
deriving DecidableEq

/-- One producer report (`report.json`), as the aggregator reads it. -/
structure Report where
  sdk_id : Option String := none
  metadata_name : Option String := none
  datasets : List (String × DatasetResult) := []
deriving DecidableEq

/-- List-based `str.startswith`: first argument is the pattern. -/
def listStartsWith : List Char → List Char → Bool
  | [], _ => true
  | _ :: _, [] => false
  | p :: ps, c :: cs => p == c && listStartsWith ps cs

/-- The three fixed core dataset names (sdks/basyx-rust/emit_report.py,
line 20, and the spec §4.1/§4.2). -/
def CORE_DATASETS : List String := ["wide", "deep", "mixed"]

/-- The five fixed core operations (same sources, line 21). -/
def CORE_OPERATIONS : List String :=
  ["deserialize", "validate", "traverse", "update", "serialize"]

/-- Embedding of `infer_operation_track` (sdks/basyx-rust/emit_report.py,
lines 24-34): the pure `(dataset, operation_id) -> track` classification
rule that the spec (§4.1) also assigns to the normalizer. -/
def infer_operation_track (dataset : String) (operation_id : String) : String :=
  if operation_id = "deserialize_xml" ∨ operation_id = "serialize_xml" then "xml"
  else if operation_id = "aasx_extract" ∨ operation_id = "aasx_repackage" then "aasx"
  else if listStartsWith "val_".data dataset.data ∧ operation_id = "validate" then
    "validation"
  else if CORE_DATASETS.contains dataset ∧ CORE_OPERATIONS.contains operation_id then
    "core"
  else "capability"

/-- CPython dict assignment `m[k] = v` on an association list: overwriting
an existing key keeps its position, a new key is appended at the end. -/
def dictInsert {α : Type} (m : List (String × α)) (k : String) (v : α) :
    List (String × α) :=
  if m.any (fun p => p.1 == k) then
    m.map (fun p => if p.1 = k then (k, v) else p)
  else m ++ [(k, v)]

/-! ## Report normalizer

`normalize_pipeline_report` is repository code that is not under src/ (its
unit test calls `aggregate.normalize_pipeline_report`); it is modelled from
the specification §4.1. -/

/-- Modelled from the spec: the stamping step of the missing
`normalize_pipeline_report` — stamp `operation_id` with the canonical id,
compute `operation_track` by the classification rule, and back-fill
`sample_count` from `iterations` when absent (§4.1). -/
def stampEntry (dsName cid : String) (e : OpEntry) : OpEntry :=
  { e with operation_id := some cid,
           operation_track := some (infer_operation_track dsName cid),
           sample_count := match e.sample_count with
                           | some sc => some sc
                           | none => e.iterations }

/-- Loop of the re-keying pass: the first accumulator component is the
re-keyed operations dict, the second the rename map. -/
def normalizeOpsGo (dsName : String)
    (acc : List (String × OpEntry) × List (String × String)) :
    List (String × OpEntry) → List (String × OpEntry) × List (String × String)
  | [] => acc
  | p :: rest =>
    normalizeOpsGo dsName
      (dictInsert acc.1 (canonical_operation_id p.1)
         (stampEntry dsName (canonical_operation_id p.1) p.2),
       dictInsert acc.2 p.1 (canonical_operation_id p.1)) rest

/-- Modelled from the spec: re-key one dataset's operations mapping under
canonical ids, last write winning, while recording the rename map (§4.1). -/
def normalizeOps (dsName : String) (ops : List (String × OpEntry)) :
    List (String × OpEntry) × List (String × String) :=
  normalizeOpsGo dsName ([], []) ops

/-- Modelled from the spec: `normalize(report) -> (normalized_report,
key_rename_map)` — the missing `normalize_pipeline_report` of
scripts/aggregate.py (§4.1). -/
def normalize_pipeline_report (r : Report) : Report × List (String × String) :=
  ({ r with datasets := (r.datasets.map
      (fun p => (p.1, { p.2 with operations := (normalizeOps p.1 p.2.operations).1 }))) },
   r.datasets.foldl (fun acc p => acc ++ (normalizeOps p.1 p.2.operations).2) [])

/-! ## Capability deriver

`derive_capabilities` is likewise repository code missing from src/;
modelled from the specification §4.2. -/

/-- Capability badges: one boolean per track. -/
structure Capabilities where
  core : Bool
  validation : Bool
  xml : Bool
  aasx : Bool
deriving DecidableEq

/-- Modelled from the spec: `derive_capabilities(report) -> (capabilities,
core_eligible)` — each badge is true iff some operation classifies into
that track, and `core_eligible` iff all three core datasets are present and
each contains all five core operations (§4.2). -/
def derive_capabilities (r : Report) : Capabilities × Bool :=
  let tracks := r.datasets.foldl
    (fun acc p => acc ++ p.2.operations.map (fun q => infer_operation_track p.1 q.1)) []
  ({ core := tracks.contains "core",
     validation := tracks.contains "validation",
     xml := tracks.contains "xml",
     aasx := tracks.contains "aasx" },
   CORE_DATASETS.all (fun d =>
     match dget r.datasets d with
     | some ds => CORE_OPERATIONS.all (fun op => (dget ds.operations op).isSome)
     | none => false))

/-! ## Result classifier / aggregator (scripts/aggregate.py, lines 40-91
and 204-236) -/

/-- State of one probed file inside a result directory: missing, present
but unparsable, or parsed. -/
inductive FileData (α : Type) where
  | absent
  | malformed
  | ok (v : α)

/-- Python `Path.exists()` for a probed file. -/
def FileData.existsOnDisk {α : Type} : FileData α → Bool
  | .absent => false
  | _ => true

/-- Embedding of `read_json` (lines 28-34): the parsed value, or `None`
when the file is missing or malformed. -/
def readJson {α : Type} : FileData α → Option α
  | .ok v => some v
  | _ => none

/-- One immediate subdirectory of the results root with the files the
aggregator probes; `k6_summary_file`/`k6_crud_file` stand for
`k6_summary_<dir>.json`/`k6_crud_<dir>.json`, which the source keys by the
directory's own name. -/
structure ResultDir where
  name : String
  report_file : FileData Report := .absent
  env_file : FileData J := .absent
  conformance_file : FileData J := .absent
  k6_summary_file : FileData J := .absent
  k6_crud_file : FileData J := .absent

/-- One library-style entry of the aggregate output (`_build_sdk_entry`
result; also the shape `_compute_regressions` reads back from a previous
results.json, where any key may be missing). -/
structure AggEntry where
  id : Option String := none
  name : Option String := none
  env : Option J := none
  pipeline : Option Report := none

/-- The `benchmarks` sub-document of a server entry. -/
structure Benchmarks where
  scenarios : Option J := none
  crud : Option J := none

/-- One server-style entry of the aggregate output. -/
structure ServerEntry where
  id : String
  name : String
  env : Option J := none
  conformance : Option J := none
  benchmarks : Option Benchmarks := none

/-- Embedding of `_build_sdk_entry` (lines 40-59): display-name precedence
lookup table, then report metadata name, then the directory-derived id; the
report read from report.json is attached as `pipeline` as-is. -/
def build_sdk_entry (entry : ResultDir) (names : List (String × String)) :
    Option AggEntry :=
  match readJson entry.report_file with
  | none => none
  | some report =>
    let sdk_id := report.sdk_id.getD entry.name
    let name := (dget names sdk_id).getD (report.metadata_name.getD sdk_id)
    let env := readJson entry.env_file
    some { id := some sdk_id, name := some name,
           env := match env with
                  | some e => if e.truthy then some e else none
                  | none => none,
           pipeline := some report }

/-- Python `env.get("sdk_name", sdk_id)` narrowed to the string case (every
producer writes `sdk_name` as a string; a non-object truthy env would
already have made the source raise on `.get`). -/
def sdkNameFrom (env : J) (dflt : String) : String :=
  match env with
  | .obj fs =>
    match dget fs "sdk_name" with
    | some (.str s) => s
    | _ => dflt
  | _ => dflt

/-- Embedding of `_build_server_entry` (lines 65-91).  Note that the source
returns a dict unconditionally — there is no code path yielding `None`. -/
def build_server_entry (entry : ResultDir) (names : List (String × String)) :
    Option ServerEntry :=
  let sdk_id := entry.name
  let env := readJson entry.env_file
  let truthyEnv := match env with
                   | some e => if e.truthy then some e else none
                   | none => none
  let name := match truthyEnv with
              | some e => (dget names sdk_id).getD (sdkNameFrom e sdk_id)
              | none => (dget names sdk_id).getD sdk_id
  let conformance := readJson entry.conformance_file
  let scenarios := readJson entry.k6_summary_file
  let crud := readJson entry.k6_crud_file
  some { id := sdk_id, name := name, env := truthyEnv,
         conformance := conformance,
         benchmarks :=
           if scenarios.isSome || crud.isSome then
             some { scenarios := scenarios, crud := crud }
           else none }

/-- Embedding of `aggregate` (lines 204-236) over the sorted list of
subdirectories of the results root.  The source appends inside a forward
loop; prepending after the tail recursion yields the same two lists in the
same order. -/
def aggregate (dirs : List ResultDir) (names : List (String × String)) :
    List AggEntry × List ServerEntry :=
  match dirs with
  | [] => ([], [])
  | d :: rest =>
    let acc := aggregate rest names
    if d.report_file.existsOnDisk then
      match build_sdk_entry d names with
      | some e => (e :: acc.1, acc.2)
      | none => acc
    else if d.conformance_file.existsOnDisk then
      match build_server_entry d names with
      | some e => (acc.1, e :: acc.2)
      | none => acc
    else
      match build_server_entry d names with
      | some e => (acc.1, e :: acc.2)
      | none => acc

/-! ## Regression detector (scripts/aggregate.py, lines 24-25 and 97-175) -/

/-- The fixed 5-percentage-point significance threshold (line 24). -/
def REGRESSION_THRESHOLD_PCT : ℚ := 5

/-- The 95% z value 1.96 (line 25). -/
def Z_95 : ℚ := 196 / 100

/-- One flagged finding of the regression detector (the dict appended at
lines 163-173). -/
structure Regression where
  dataset : String
  operation : String
  previous_mean_ns : ℚ
  current_mean_ns : ℚ
  change_pct : ℚ
  ci_lower_pct : ℚ
  ci_upper_pct : ℚ
  significant : Bool
  direction : String
deriving DecidableEq

/-- Banker's rounding to an integer, the behavior of Python `round`. -/
def roundHalfEven (q : ℚ) : ℤ :=
  let f := ⌊q⌋
  let r := q - f
  if r < 1 / 2 then f
  else if 1 / 2 < r then f + 1
  else if f % 2 = 0 then f else f + 1

/-- Python `round(q, 2)` over exact rationals. -/
def round2 (q : ℚ) : ℚ := (roundHalfEven (q * 100) : ℚ) / 100

/-- Structural integer square root by downward search; exact on perfect
squares and total everywhere.  It instantiates the `sqrt` parameter of the
detector in concrete witnesses; theorems assume only nonnegativity, which
the real `math.sqrt` also satisfies on the nonnegative arguments passed. -/
def natSqrtAux (n : Nat) : Nat → Nat
  | 0 => 0
  | (k + 1) => if (k + 1) * (k + 1) ≤ n then k + 1 else natSqrtAux n k

/-- Integer square root of a natural number (downward search wrapper). -/
def natSqrt (n : Nat) : Nat := natSqrtAux n n

/-- Rational stand-in for `math.sqrt`, exact on perfect squares. -/
def sqrtQ (q : ℚ) : ℚ := (natSqrt q.num.toNat : ℚ) / (natSqrt q.den : ℚ)

/-- The local `change_pct` of the loop body (line 139). -/
def changePct (cm pm : ℚ) : ℚ := (cm - pm) / pm * 100

/-- The locals `curr_var`/`prev_var`/`se_diff`/`se_pct` of the loop body
(lines 142-147) composed: Welch standard error from `(stddev or 0)**2` and
`iterations`, percentage-scaled against the previous mean (zero when the
previous mean is not positive, per the conditional at line 147). -/
def sePct (sqrt : ℚ → ℚ) (currOp prevOp : OpEntry) (pm : ℚ) : ℚ :=
  if 0 < pm then
    sqrt ((currOp.stddev_ns.getD 0) ^ 2 / currOp.iterations.getD 0 +
        (prevOp.stddev_ns.getD 0) ^ 2 / prevOp.iterations.getD 0) / pm * 100
  else 0

/-- The 95% confidence interval `(ci_lower, ci_upper)` of the change
percentage (lines 148-149). -/
def ciBounds (sqrt : ℚ → ℚ) (currOp prevOp : OpEntry) (cm pm : ℚ) : ℚ × ℚ :=
  (changePct cm pm - Z_95 * sePct sqrt currOp prevOp pm,
   changePct cm pm + Z_95 * sePct sqrt currOp prevOp pm)

/-- The loop body of `_compute_regressions` for one `(dataset, operation)`
pair present on both sides (lines 119-173): the skip guard (missing mean,
zero previous mean, `iterations` ≤ 1 on either side), then the CI and the
significance decision; `some` means a Regression record is appended. -/
def compareOp (sqrt : ℚ → ℚ) (dsName opName : String) (currOp prevOp : OpEntry) :
    Option Regression :=
  match currOp.mean_ns, prevOp.mean_ns with
  | some cm, some pm =>
    if pm = 0 ∨ currOp.iterations.getD 0 ≤ 1 ∨ prevOp.iterations.getD 0 ≤ 1 then
      none
    else
      if REGRESSION_THRESHOLD_PCT < (ciBounds sqrt currOp prevOp cm pm).1 then
        some { dataset := dsName, operation := opName,
               previous_mean_ns := pm, current_mean_ns := cm,
               change_pct := round2 ((cm - pm) / pm * 100),
               ci_lower_pct := round2 (ciBounds sqrt currOp prevOp cm pm).1,
               ci_upper_pct := round2 (ciBounds sqrt currOp prevOp cm pm).2,
               significant := true, direction := "regression" }
      else if (ciBounds sqrt currOp prevOp cm pm).2 < -REGRESSION_THRESHOLD_PCT then
        some { dataset := dsName, operation := opName,
               previous_mean_ns := pm, current_mean_ns := cm,
               change_pct := round2 ((cm - pm) / pm * 100),
               ci_lower_pct := round2 (ciBounds sqrt currOp prevOp cm pm).1,
               ci_upper_pct := round2 (ciBounds sqrt currOp prevOp cm pm).2,
               significant := true, direction := "improvement" }
      else none
  | _, _ => none

/-- Embedding of `_compute_regressions` (lines 97-175): locate the previous
entry by id (empty-string default), walk the shared datasets and operations
in order, and append every flagged record. -/
def compute_regressions (sqrt : ℚ → ℚ) (current_sdk : AggEntry)
    (previous_sdks : List (String × AggEntry)) : List Regression :=
  match dget previous_sdks (current_sdk.id.getD "") with
  | none => []
  | some prev_sdk =>
    ((current_sdk.pipeline.map Report.datasets).getD []).foldl
      (fun acc p =>
        acc ++
          match dget ((prev_sdk.pipeline.map Report.datasets).getD []) p.1 with
          | none => []
          | some prev_ds =>
            p.2.operations.filterMap
              (fun q =>
                match dget prev_ds.operations q.1 with
                | none => none
                | some prev_op => compareOp sqrt p.1 q.1 q.2 prev_op))
      []

/-! ### Idempotence machinery -/

/-- A character list free of ASCII uppercase characters. -/
def noUpper (l : List Char) : Bool := l.all (fun c => !(isAsciiUpper c))

/-- A character list free of hyphens. -/
def noDash (l : List Char) : Bool := l.all (fun c => !(c = '-'))

theorem toNat_ofNat_valid (n : Nat) (h : n < 55296) : (Char.ofNat n).toNat = n := by
  have hv : n.isValidChar := Or.inl h
  simp [Char.ofNat, hv, Char.ofNatAux, Char.toNat]
  rfl

theorem lower_not_upper (c : Char) : isAsciiUpper (asciiLowerChar c) = false := by
  unfold asciiLowerChar
  split
  · rename_i h
    simp only [isAsciiUpper, Bool.and_eq_true, decide_eq_true_eq] at h
    have hval : (Char.ofNat (c.toNat + 32)).toNat = c.toNat + 32 :=
      toNat_ofNat_valid _ (by omega)
    simp only [isAsciiUpper, hval, Bool.and_eq_false_iff, decide_eq_false_iff_not]
    omega
  · rename_i h
    simp only [isAsciiUpper, Bool.and_eq_true, decide_eq_true_eq, not_and] at h
    simp only [isAsciiUpper, Bool.and_eq_false_iff, decide_eq_false_iff_not]
    omega

theorem lower_ne_dash (c : Char) (h : ¬ c = '-') : ¬ asciiLowerChar c = '-' := by
  unfold asciiLowerChar
  split
  · rename_i hu
    simp only [isAsciiUpper, Bool.and_eq_true, decide_eq_true_eq] at hu
    intro heq
    have hval : (Char.ofNat (c.toNat + 32)).toNat = c.toNat + 32 :=
      toNat_ofNat_valid _ (by omega)
    have h45 : ('-' : Char).toNat = 45 := rfl
    have : ('-' : Char).toNat = c.toNat + 32 := by rw [← heq, hval]
    omega
  · exact h

theorem camelSubAux_of_noUpper (l : List Char) :
    ∀ c, noUpper l = true → camelSubAux c l = c :: l := by
  induction l with
  | nil => intro c _; rfl
  | cons c2 rest ih =>
    intro c h
    simp only [noUpper, List.all_cons, Bool.and_eq_true, Bool.not_eq_eq_eq_not,
      Bool.not_true] at h
    unfold camelSubAux
    rw [h.1]
    simp only [Bool.and_false, Bool.false_eq_true, if_false]
    rw [ih c2 h.2]

theorem camelSub_of_noUpper (l : List Char) (h : noUpper l = true) :
    camelSub l = l := by
  cases l with
  | nil => rfl
  | cons c rest =>
    simp only [noUpper, List.all_cons, Bool.and_eq_true] at h
    unfold camelSub
    exact camelSubAux_of_noUpper rest c (by simpa [noUpper] using h.2)

theorem map_dash_of_noDash (l : List Char) (h : noDash l = true) :
    l.map dashToUnderscore = l := by
  induction l with
  | nil => rfl
  | cons c rest ih =>
    simp only [noDash, List.all_cons, Bool.and_eq_true, Bool.not_eq_eq_eq_not,
      Bool.not_true, decide_eq_false_iff_not] at h
    simp only [List.map_cons, dashToUnderscore, if_neg h.1,
      ih (by simpa [noDash] using h.2)]

theorem map_lower_of_noUpper (l : List Char) (h : noUpper l = true) :
    l.map asciiLowerChar = l := by
  induction l with
  | nil => rfl
  | cons c rest ih =>
    simp only [noUpper, List.all_cons, Bool.and_eq_true, Bool.not_eq_eq_eq_not,
      Bool.not_true] at h
    simp only [List.map_cons, asciiLowerChar, h.1, Bool.false_eq_true, if_false,
      ih (by simpa [noUpper] using h.2)]

theorem noUpper_map_lower (l : List Char) :
    noUpper (l.map asciiLowerChar) = true := by
  induction l with
  | nil => rfl
  | cons c rest ih =>
    simp only [List.map_cons, noUpper, List.all_cons, Bool.and_eq_true]
    exact ⟨by simp [lower_not_upper c], by simpa [noUpper] using ih⟩

theorem noDash_map_dash (l : List Char) :
    noDash (l.map dashToUnderscore) = true := by
  induction l with
  | nil => rfl
  | cons c rest ih =>
    simp only [List.map_cons, noDash, List.all_cons, Bool.and_eq_true]
    refine ⟨?_, by simpa [noDash] using ih⟩
    simp only [dashToUnderscore, Bool.not_eq_eq_eq_not, Bool.not_true,
      decide_eq_false_iff_not]
    split
    · decide
    · assumption

theorem noDash_map_lower (l : List Char) (h : noDash l = true) :
    noDash (l.map asciiLowerChar) = true := by
  induction l with
  | nil => rfl
  | cons c rest ih =>
    simp only [noDash, List.all_cons, Bool.and_eq_true, Bool.not_eq_eq_eq_not,
      Bool.not_true, decide_eq_false_iff_not] at h
    simp only [List.map_cons, noDash, List.all_cons, Bool.and_eq_true,
      Bool.not_eq_eq_eq_not, Bool.not_true, decide_eq_false_iff_not]
    exact ⟨lower_ne_dash c h.1, by simpa [noDash] using ih (by simpa [noDash] using h.2)⟩

theorem snake_noUpper (s : String) : noUpper (snakeTransform s).data = true := by
  simp only [snakeTransform]
  exact noUpper_map_lower _

theorem snake_noDash (s : String) : noDash (snakeTransform s).data = true := by
  simp only [snakeTransform]
  exact noDash_map_lower _ (noDash_map_dash _)

theorem snakeTransform_fixed (s : String) (hu : noUpper s.data = true)
    (hd : noDash s.data = true) : snakeTransform s = s := by
  unfold snakeTransform
  rw [camelSub_of_noUpper _ hu, map_dash_of_noDash _ hd, map_lower_of_noUpper _ hu]

theorem explicitAlias_eq_none (s : String) (hu : noUpper s.data = true)
    (hd : denseAlias s = none) : explicitAlias s = none := by
  unfold explicitAlias
  split_ifs with h1 h2 h3 h4 h5 h6 h7 h8
  · exact absurd hu (by rw [h1]; decide)
  · exact absurd hu (by rw [h2]; decide)
  · rw [h3] at hd; exact absurd hd (by decide)
  · rw [h4] at hd; exact absurd hd (by decide)
  · exact absurd hu (by rw [h5]; decide)
  · exact absurd hu (by rw [h6]; decide)
  · rw [h7] at hd; exact absurd hd (by decide)
  · rw [h8] at hd; exact absurd hd (by decide)
  · rfl

theorem explicitAlias_canonical (s v : String) (h : explicitAlias s = some v) :
    canonical_operation_id v = v := by
  unfold explicitAlias at h
  split_ifs at h <;> cases h <;> decide

theorem denseAlias_canonical (s v : String) (h : denseAlias s = some v) :
    canonical_operation_id v = v := by
  unfold denseAlias at h
  split_ifs at h <;> cases h <;> decide

/-- C6: applying `canonical_operation_id` twice yields the same result as
applying it once — canonicalization is idempotent on every string key. -/
theorem canonical_operation_id_idempotent (k : String) :
    canonical_operation_id (canonical_operation_id k) =
      canonical_operation_id k := by
  rcases he : explicitAlias k with _ | v
  · rcases hd : denseAlias (snakeTransform k) with _ | v
    · have hck : canonical_operation_id k = snakeTransform k := by
        simp only [canonical_operation_id, he, hd]
      rw [hck]
      have hu := snake_noUpper k
      have hdash := snake_noDash k
      have hfix : snakeTransform (snakeTransform k) = snakeTransform k :=
        snakeTransform_fixed _ hu hdash
      have hex : explicitAlias (snakeTransform k) = none :=
        explicitAlias_eq_none _ hu hd
      simp only [canonical_operation_id, hex, hfix, hd]
    · have hck : canonical_operation_id k = v := by
        simp only [canonical_operation_id, he, hd]
      rw [hck]
      exact denseAlias_canonical _ v hd
  · have hck : canonical_operation_id k = v := by
      simp only [canonical_operation_id, he]
    rw [hck]
    exact explicitAlias_canonical k v he

/-! ## Generic helper lemmas -/

theorem mem_foldl_append {α β : Type} (f : α → List β) :
    ∀ (l : List α) (init : List β) (x : β),
      x ∈ l.foldl (fun acc a => acc ++ f a) init ↔
        x ∈ init ∨ ∃ a, a ∈ l ∧ x ∈ f a := by
  intro l
  induction l with
  | nil => intro init x; simp
  | cons a t ih =>
    intro init x
    rw [List.foldl_cons, ih]
    simp only [List.mem_append, List.mem_cons]
    constructor
    · rintro ((h | h) | ⟨b, hb, hx⟩)
      · exact Or.inl h
      · exact Or.inr ⟨a, Or.inl rfl, h⟩
      · exact Or.inr ⟨b, Or.inr hb, hx⟩
    · rintro (h | ⟨b, rfl | hb, hx⟩)
      · exact Or.inl (Or.inl h)
      · exact Or.inl (Or.inr hx)
      · exact Or.inr ⟨b, hb, hx⟩

theorem sqrtQ_nonneg (x : ℚ) : 0 ≤ sqrtQ x := by
  unfold sqrtQ
  positivity

theorem natSqrt_two : natSqrt 2 = 1 := by decide

theorem sqrtQ_two : sqrtQ 2 = 1 := by
  have hn : ((2 : ℚ)).num = 2 := by norm_num
  have hd : ((2 : ℚ)).den = 1 := by norm_num
  rw [sqrtQ, hn, hd]
  rw [show (2 : ℤ).toNat = 2 from rfl, natSqrt_two]
  norm_num [show natSqrt 1 = 1 from by decide]

theorem sqrtQ_zero : sqrtQ 0 = 0 := by
  have hn : ((0 : ℚ)).num = 0 := by norm_num
  have hd : ((0 : ℚ)).den = 1 := by norm_num
  rw [sqrtQ, hn, hd]
  rw [show (0 : ℤ).toNat = 0 from rfl, show natSqrt 0 = 0 from by decide]
  norm_num

/-! ## C8 — absent previous entry -/

/-- C8: when the previous aggregate's index holds no entry under the
current entry's identifier, `_compute_regressions` returns the empty
list. -/
theorem compute_regressions_no_previous (sqrt : ℚ → ℚ) (current_sdk : AggEntry)
    (previous_sdks : List (String × AggEntry))
    (h : dget previous_sdks (current_sdk.id.getD "") = none) :
    compute_regressions sqrt current_sdk previous_sdks = [] := by
  unfold compute_regressions
  rw [h]

/-- Witness for the C8 theorem at a concrete entry and an empty previous
index. -/
theorem compute_regressions_no_previous_witness :
    dget ([] : List (String × AggEntry))
        ((({ id := some "sdk-a" } : AggEntry)).id.getD "") = none ∧
      compute_regressions sqrtQ { id := some "sdk-a" } [] = [] :=
  ⟨rfl, compute_regressions_no_previous sqrtQ { id := some "sdk-a" } [] rfl⟩

/-! ## C10 — only significant directed records are emitted -/

theorem compareOp_emitted (sqrt : ℚ → ℚ) (dsName opName : String)
    (currOp prevOp : OpEntry) (r : Regression)
    (h : compareOp sqrt dsName opName currOp prevOp = some r) :
    r.significant = true ∧
      (r.direction = "regression" ∨ r.direction = "improvement") := by
  unfold compareOp at h
  split at h
  · split at h
    · exact absurd h (by simp)
    · split at h
      · cases h; exact ⟨rfl, Or.inl rfl⟩
      · split at h
        · cases h; exact ⟨rfl, Or.inr rfl⟩
        · exact absurd h (by simp)
  · exact absurd h (by simp)

/-- C10: every record the regression detector emits carries
significant = true and direction "regression" or "improvement"; the value
"unchanged" never reaches the output list. -/
theorem compute_regressions_emitted_significant (sqrt : ℚ → ℚ)
    (current_sdk : AggEntry) (previous_sdks : List (String × AggEntry))
    (r : Regression)
    (hr : r ∈ compute_regressions sqrt current_sdk previous_sdks) :
    r.significant = true ∧
      (r.direction = "regression" ∨ r.direction = "improvement") := by
  unfold compute_regressions at hr
  split at hr
  · simp at hr
  · rcases (mem_foldl_append _ _ _ _).mp hr with h | ⟨p, _, hx⟩
    · simp at h
    · rcases hdg : dget _ p.1 with _ | prev_ds
      · rw [hdg] at hx
        simp at hx
      · rw [hdg] at hx
        rw [List.mem_filterMap] at hx
        rcases hx with ⟨q, _, hcmp⟩
        rcases hpo : dget prev_ds.operations q.1 with _ | prev_op
        · rw [hpo] at hcmp; cases hcmp
        · rw [hpo] at hcmp
          exact compareOp_emitted sqrt p.1 q.1 q.2 prev_op r hcmp

/-! ## C3 — core eligibility -/

/-- Operations mapping holding the five core operations (empty stats
suffice for the presence checks eligibility performs). -/
def coreOpsEntries : List (String × OpEntry) :=
  CORE_OPERATIONS.map (fun op => (op, {}))

/-- Report holding exactly the 15 core dataset-operation combinations. -/
def fullCoreReport : Report :=
  { datasets := CORE_DATASETS.map (fun d => (d, { operations := coreOpsEntries })) }

/-- Removal of a single `(dataset, operation)` combination from a report. -/
def removeOp (r : Report) (dsName opName : String) : Report :=
  { r with datasets := (r.datasets.map (fun p =>
      if p.1 = dsName then
        (p.1, { p.2 with operations := p.2.operations.filter (fun q => !(q.1 == opName)) })
      else p)) }

/-- C3: `derive_capabilities` reports core eligibility exactly when every
one of the three fixed core datasets is present and contains all five fixed
core operations; the 15-combination report is eligible and removing any
single combination breaks eligibility. -/
theorem derive_capabilities_core_eligible :
    (∀ r : Report, (derive_capabilities r).2 = true ↔
      ∀ d ∈ CORE_DATASETS, ∃ ds, dget r.datasets d = some ds ∧
        ∀ op ∈ CORE_OPERATIONS, (dget ds.operations op).isSome = true) ∧
    (derive_capabilities fullCoreReport).2 = true ∧
    (∀ (i : Fin 3) (j : Fin 5),
      (derive_capabilities (removeOp fullCoreReport (CORE_DATASETS.get i)
        (CORE_OPERATIONS.get j))).2 = false) := by
  refine ⟨?_, by decide, by decide⟩
  intro r
  simp only [derive_capabilities, List.all_eq_true]
  constructor
  · intro h d hd
    have hx := h d hd
    rcases hg : dget r.datasets d with _ | ds
    · rw [hg] at hx
      exact absurd hx (by simp)
    · rw [hg] at hx
      exact ⟨ds, rfl, by simpa [List.all_eq_true] using hx⟩
  · intro h d hd
    rcases h d hd with ⟨ds, hds, hops⟩
    rw [hds]
    simpa [List.all_eq_true] using hops

/-- Witness for the C3 theorem: its characterization instantiated at the
full 15-combination report. -/
theorem derive_capabilities_core_eligible_witness :
    (derive_capabilities fullCoreReport).2 = true ↔
      ∀ d ∈ CORE_DATASETS, ∃ ds, dget fullCoreReport.datasets d = some ds ∧
        ∀ op ∈ CORE_OPERATIONS, (dget ds.operations op).isSome = true :=
  derive_capabilities_core_eligible.1 fullCoreReport

/-! ## C2 — normalization stamps ids; the aggregator attaches the raw
report -/

theorem dictInsert_mem {α : Type} (m : List (String × α)) (k : String) (v : α)
    (a : String) (b : α) (hab : (a, b) ∈ dictInsert m k v) :
    (a, b) ∈ m ∨ (a = k ∧ b = v) := by
  unfold dictInsert at hab
  split at hab
  · rw [List.mem_map] at hab
    rcases hab with ⟨p, hp, heq⟩
    by_cases hk : p.1 = k
    · rw [if_pos hk] at heq
      injection heq with h1 h2
      exact Or.inr ⟨h1.symm, h2.symm⟩
    · rw [if_neg hk] at heq
      rw [heq] at hp
      exact Or.inl hp
  · rw [List.mem_append] at hab
    rcases hab with h | h
    · exact Or.inl h
    · simp only [List.mem_singleton, Prod.mk.injEq] at h
      exact Or.inr ⟨h.1, h.2⟩

theorem normalizeOpsGo_operation_id (dsName : String) :
    ∀ (ops : List (String × OpEntry))
      (acc : List (String × OpEntry) × List (String × String)),
      (∀ k e, (k, e) ∈ acc.1 → e.operation_id = some k) →
      ∀ k e, (k, e) ∈ (normalizeOpsGo dsName acc ops).1 →
        e.operation_id = some k := by
  intro ops
  induction ops with
  | nil => intro acc hacc k e h; exact hacc k e h
  | cons p t ih =>
    intro acc hacc k e h
    refine ih _ ?_ k e h
    intro k2 e2 h2
    rcases dictInsert_mem _ _ _ _ _ h2 with hm | ⟨hk, he⟩
    · exact hacc k2 e2 hm
    · subst hk; subst he; rfl

theorem normalizeOps_operation_id (dsName : String)
    (ops : List (String × OpEntry)) (k : String) (e : OpEntry)
    (h : (k, e) ∈ (normalizeOps dsName ops).1) : e.operation_id = some k :=
  normalizeOpsGo_operation_id dsName ops ([], [])
    (by intro k2 e2 h2; simp at h2) k e h

/-- Operation stats of a legacy-keyed producer report. -/
def legacyOpEntry : OpEntry :=
  { iterations := some 10, mean_ns := some 100, stddev_ns := some 10 }

/-- Report still using the legacy key `deserializeXml`. -/
def legacyReport : Report :=
  { datasets := [("wide", { operations := [("deserializeXml", legacyOpEntry)] })] }

/-- Result directory whose report.json parses to `legacyReport`. -/
def legacyDir : ResultDir := { name := "sdk-x", report_file := .ok legacyReport }

/-- C2 counterexample: `_build_sdk_entry` attaches the report exactly as
read — its operations still under the legacy key, with no `operation_id`
stamped — so the pipeline field is not the normalized report. -/
theorem build_sdk_entry_pipeline_unnormalized :
    (build_sdk_entry legacyDir []).map AggEntry.pipeline = some (some legacyReport) ∧
      legacyReport ≠ (normalize_pipeline_report legacyReport).1 :=
  ⟨rfl, by decide⟩

/-- C2 (amended): normalization re-keys every operation so its
`operation_id` equals its own mapping key, and the aggregator attaches the
report exactly as read from report.json — unnormalized — as the entry's
`pipeline` field. -/
theorem normalize_stamps_and_pipeline_raw :
    (∀ (r : Report) (dsName : String) (ds : DatasetResult) (k : String) (e : OpEntry),
      (dsName, ds) ∈ (normalize_pipeline_report r).1.datasets →
      (k, e) ∈ ds.operations → e.operation_id = some k) ∧
    (∀ (entry : ResultDir) (names : List (String × String)) (report : Report)
        (e : AggEntry),
      readJson entry.report_file = some report →
      build_sdk_entry entry names = some e → e.pipeline = some report) := by
  constructor
  · intro r dsName ds k e hds hop
    simp only [normalize_pipeline_report, List.mem_map] at hds
    rcases hds with ⟨p, hp, heq⟩
    injection heq with h1 h2
    subst h1
    subst h2
    exact normalizeOps_operation_id p.1 p.2.operations k e hop
  · intro entry names report e hread hbuild
    unfold build_sdk_entry at hbuild
    rw [hread] at hbuild
    cases hbuild
    rfl

/-- Normalized form of `legacyOpEntry` after stamping. -/
def normalizedLegacyEntry : OpEntry :=
  { legacyOpEntry with
    operation_id := some "deserialize_xml",
    operation_track := some "xml", sample_count := some 10 }

/-- Normalized form of the legacy dataset. -/
def normalizedLegacyDataset : DatasetResult :=
  { operations := [("deserialize_xml", normalizedLegacyEntry)] }

/-- Witness for the amended C2 theorem at the legacy report and its result
directory. -/
theorem normalize_stamps_and_pipeline_raw_witness :
    (("wide", normalizedLegacyDataset) ∈
        (normalize_pipeline_report legacyReport).1.datasets) ∧
    (("deserialize_xml", normalizedLegacyEntry) ∈ normalizedLegacyDataset.operations) ∧
    normalizedLegacyEntry.operation_id = some "deserialize_xml" ∧
    readJson legacyDir.report_file = some legacyReport ∧
    build_sdk_entry legacyDir [] =
      some { id := some "sdk-x", name := some "sdk-x",
             env := none, pipeline := some legacyReport } ∧
    ({ id := some "sdk-x", name := some "sdk-x", env := none,
       pipeline := some legacyReport } : AggEntry).pipeline = some legacyReport :=
  ⟨by decide, by decide,
   normalize_stamps_and_pipeline_raw.1 legacyReport "wide" normalizedLegacyDataset
     "deserialize_xml" normalizedLegacyEntry (by decide) (by decide),
   rfl, rfl,
   normalize_stamps_and_pipeline_raw.2 legacyDir [] legacyReport _ rfl rfl⟩

/-! ## C9 — malformed report.json contributes nothing -/

theorem aggregate_skip_malformed (d : ResultDir) (rest : List ResultDir)
    (names : List (String × String)) (h : d.report_file = FileData.malformed)
    (hb : build_sdk_entry d names = none) :
    aggregate (d :: rest) names = aggregate rest names := by
  simp only [aggregate, h, FileData.existsOnDisk, if_true, hb]

/-- C9: a subdirectory whose report.json exists but fails to parse makes
the library branch return None and contributes no entry at all to either
output list — the tiered classification does not fall through to the
server or fallback branches. -/
theorem aggregate_malformed_report_skipped (names : List (String × String))
    (pre post : List ResultDir) (d : ResultDir)
    (h : d.report_file = FileData.malformed) :
    build_sdk_entry d names = none ∧
      aggregate (pre ++ d :: post) names = aggregate (pre ++ post) names := by
  have hb : build_sdk_entry d names = none := by
    unfold build_sdk_entry
    rw [h]
    rfl
  refine ⟨hb, ?_⟩
  induction pre with
  | nil => simpa using aggregate_skip_malformed d post names h hb
  | cons x xs ih =>
    simp only [List.cons_append, aggregate, List.append_eq]
    rw [ih]

/-- Directory holding an unparsable report.json and nothing else. -/
def malformedDir : ResultDir := { name := "bad", report_file := .malformed }

/-- Witness for the C9 theorem at a one-directory results root. -/
theorem aggregate_malformed_report_skipped_witness :
    malformedDir.report_file = FileData.malformed ∧
    build_sdk_entry malformedDir [] = none ∧
    aggregate ([] ++ malformedDir :: []) [] = aggregate ([] ++ []) [] :=
  ⟨rfl, (aggregate_malformed_report_skipped [] [] [] malformedDir rfl).1,
   (aggregate_malformed_report_skipped [] [] [] malformedDir rfl).2⟩

/-! ## C4 — artifact-less directories (code bug: a server entry is still
appended) -/

/-- Directory holding no recognizable artifact at all. -/
def barrenDir : ResultDir := { name := "mystery" }

/-- C4 (code bug): on a results root with one artifact-less subdirectory
the fallback branch still appends a server entry carrying just the
directory-derived id and name, because `_build_server_entry` returns a
dict unconditionally — the `None` its caller guards for cannot occur — so
the claimed zero-entry outcome fails on the code as written. -/
theorem aggregate_barren_dir_adds_server_entry :
    aggregate [barrenDir] [] = ([], [{ id := "mystery", name := "mystery" }]) := rfl

/-! ## Concrete regression scenarios -/

/-- Aggregate entry holding a single dataset with a single operation. -/
def singletonEntry (sid dsName opName : String) (e : OpEntry) : AggEntry :=
  { id := some sid,
    pipeline := some { datasets := [(dsName, { operations := [(opName, e)] })] } }

theorem compute_regressions_singleton (sqrt : ℚ → ℚ) (sid dsName opName : String)
    (c p : OpEntry) :
    compute_regressions sqrt (singletonEntry sid dsName opName c)
      [(sid, singletonEntry sid dsName opName p)] =
      (compareOp sqrt dsName opName c p).toList := by
  rcases h : compareOp sqrt dsName opName c p with _ | r <;>
    simp [compute_regressions, singletonEntry, dget, h, Option.toList]

/-- Current-side stats with no stddev reported (variance treated as 0). -/
def zeroVarCurrOp : OpEntry := { mean_ns := some 200, iterations := some 10 }

/-- Previous-side stats with no stddev reported. -/
def zeroVarPrevOp : OpEntry := { mean_ns := some 100, iterations := some 10 }

/-- The record the detector emits for the zero-variance +100% scenario. -/
def regRecordZeroVar : Regression :=
  { dataset := "wide", operation := "deserialize", previous_mean_ns := 100,
    current_mean_ns := 200, change_pct := 100, ci_lower_pct := 100,
    ci_upper_pct := 100, significant := true, direction := "regression" }

theorem compareOp_zero_var :
    compareOp sqrtQ "wide" "deserialize" zeroVarCurrOp zeroVarPrevOp =
      some regRecordZeroVar := by
  unfold compareOp
  norm_num [zeroVarCurrOp, zeroVarPrevOp, ciBounds, changePct, sePct, Z_95,
    REGRESSION_THRESHOLD_PCT, round2, roundHalfEven, sqrtQ_zero, regRecordZeroVar]

/-- Witness for the C10 theorem: a concrete comparison that emits one
regression record. -/
theorem compute_regressions_emitted_significant_witness :
    (regRecordZeroVar ∈ compute_regressions sqrtQ
        (singletonEntry "sdk-a" "wide" "deserialize" zeroVarCurrOp)
        [("sdk-a", singletonEntry "sdk-a" "wide" "deserialize" zeroVarPrevOp)]) ∧
    regRecordZeroVar.significant = true ∧
      (regRecordZeroVar.direction = "regression" ∨
        regRecordZeroVar.direction = "improvement") :=
  have hm : regRecordZeroVar ∈ compute_regressions sqrtQ
      (singletonEntry "sdk-a" "wide" "deserialize" zeroVarCurrOp)
      [("sdk-a", singletonEntry "sdk-a" "wide" "deserialize" zeroVarPrevOp)] := by
    rw [compute_regressions_singleton, compareOp_zero_var]
    exact List.mem_singleton_self _
  ⟨hm, compute_regressions_emitted_significant sqrtQ _ _ _ hm⟩

/-! ## C1 — the skip guard reads iterations, not sample_count (code bug) -/

/-- Current-side stats of the unit test scenario sharpened to the skip
boundary: a single statistical sample, ten thousand raw iterations. -/
def lowSampleCurrOp : OpEntry :=
  { mean_ns := some 110, stddev_ns := some 100, iterations := some 10000,
    sample_count := some 1 }

/-- Previous-side stats, likewise with sample_count 1. -/
def lowSamplePrevOp : OpEntry :=
  { mean_ns := some 100, stddev_ns := some 100, iterations := some 10000,
    sample_count := some 1 }

theorem ciBounds_low_sample (sqrt : ℚ → ℚ) :
    ciBounds sqrt lowSampleCurrOp lowSamplePrevOp 110 100 =
      (10 - Z_95 * sqrt 2, 10 + Z_95 * sqrt 2) := by
  unfold ciBounds changePct sePct
  norm_num [lowSampleCurrOp, lowSamplePrevOp]

/-- C1 (code bug): both sides carry sample_count 1, so the claim (and the
unit test `test_compute_regressions_prefers_sample_count`, and §4.4 of the
spec) demand the pair be skipped; the detector instead reads `iterations`
(10000), does not skip, and emits a significant regression — for every
square-root function with 0 ≤ sqrt 2 ≤ 2, which the real one satisfies
(sqrt 2 ≈ 1.414 makes the CI [10 − 1.96·sqrt 2, 10 + 1.96·sqrt 2], whose
lower bound 7.23 exceeds the threshold 5). -/
theorem compute_regressions_ignores_sample_count (sqrt : ℚ → ℚ)
    (h0 : 0 ≤ sqrt 2) (h2 : sqrt 2 ≤ 2) :
    ∃ r, compute_regressions sqrt
        (singletonEntry "sdk-a" "wide" "deserialize" lowSampleCurrOp)
        [("sdk-a", singletonEntry "sdk-a" "wide" "deserialize" lowSamplePrevOp)] =
          [r] ∧
      r.significant = true ∧ r.direction = "regression" := by
  have hlo : REGRESSION_THRESHOLD_PCT <
      (ciBounds sqrt lowSampleCurrOp lowSamplePrevOp 110 100).1 := by
    rw [ciBounds_low_sample]
    simp only [REGRESSION_THRESHOLD_PCT, Z_95]
    nlinarith [h2]
  have hcmp : compareOp sqrt "wide" "deserialize" lowSampleCurrOp lowSamplePrevOp =
      some { dataset := "wide", operation := "deserialize",
             previous_mean_ns := 100, current_mean_ns := 110,
             change_pct := round2 ((110 - 100) / 100 * 100),
             ci_lower_pct :=
               round2 (ciBounds sqrt lowSampleCurrOp lowSamplePrevOp 110 100).1,
             ci_upper_pct :=
               round2 (ciBounds sqrt lowSampleCurrOp lowSamplePrevOp 110 100).2,
             significant := true, direction := "regression" } := by
    simp only [compareOp, show lowSampleCurrOp.mean_ns = some 110 from rfl,
      show lowSamplePrevOp.mean_ns = some 100 from rfl]
    rw [if_neg (show ¬((100 : ℚ) = 0 ∨ lowSampleCurrOp.iterations.getD 0 ≤ 1 ∨
        lowSamplePrevOp.iterations.getD 0 ≤ 1) from by
      norm_num [lowSampleCurrOp, lowSamplePrevOp])]
    rw [if_pos hlo]
  exact ⟨_, by rw [compute_regressions_singleton, hcmp]; rfl, rfl, rfl⟩

/-- Witness for the C1 theorem: the square-root bounds hold for the
concrete `sqrtQ` (whose value at 2 is 1), and the detector emits the
regression record. -/
theorem compute_regressions_ignores_sample_count_witness :
    (0 ≤ sqrtQ 2 ∧ sqrtQ 2 ≤ 2) ∧
      ∃ r, compute_regressions sqrtQ
          (singletonEntry "sdk-a" "wide" "deserialize" lowSampleCurrOp)
          [("sdk-a", singletonEntry "sdk-a" "wide" "deserialize" lowSamplePrevOp)] =
            [r] ∧
        r.significant = true ∧ r.direction = "regression" :=
  ⟨⟨by rw [sqrtQ_two]; norm_num, by rw [sqrtQ_two]; norm_num⟩,
   compute_regressions_ignores_sample_count sqrtQ (by rw [sqrtQ_two]; norm_num)
     (by rw [sqrtQ_two]; norm_num)⟩

/-! ## C5 — significance decision -/

theorem sePct_nonneg (sqrt : ℚ → ℚ) (hsq : ∀ x : ℚ, 0 ≤ sqrt x)
    (currOp prevOp : OpEntry) (pm : ℚ) : 0 ≤ sePct sqrt currOp prevOp pm := by
  unfold sePct
  split
  · rename_i hpm
    exact mul_nonneg (div_nonneg (hsq _) (le_of_lt hpm)) (by norm_num)
  · exact le_refl 0

theorem ciBounds_le (sqrt : ℚ → ℚ) (hsq : ∀ x : ℚ, 0 ≤ sqrt x)
    (currOp prevOp : OpEntry) (cm pm : ℚ) :
    (ciBounds sqrt currOp prevOp cm pm).1 ≤ (ciBounds sqrt currOp prevOp cm pm).2 := by
  unfold ciBounds
  dsimp only
  have hse := sePct_nonneg sqrt hsq currOp prevOp pm
  have hz : (0 : ℚ) ≤ Z_95 := by norm_num [Z_95]
  nlinarith [mul_nonneg hz hse]

/-- C5: for a compared pair that survives the skip guard, a record with
direction "regression" is emitted exactly when the CI lower bound exceeds
+5, a record with direction "improvement" exactly when the CI upper bound
lies below −5, and otherwise no record at all is emitted for the pair. -/
theorem compareOp_significance (sqrt : ℚ → ℚ) (hsq : ∀ x : ℚ, 0 ≤ sqrt x)
    (dsName opName : String) (currOp prevOp : OpEntry) (cm pm : ℚ)
    (hcm : currOp.mean_ns = some cm) (hpm : prevOp.mean_ns = some pm)
    (hskip : ¬(pm = 0 ∨ currOp.iterations.getD 0 ≤ 1 ∨
        prevOp.iterations.getD 0 ≤ 1)) :
    ((∃ r, compareOp sqrt dsName opName currOp prevOp = some r ∧
        r.direction = "regression") ↔
      REGRESSION_THRESHOLD_PCT < (ciBounds sqrt currOp prevOp cm pm).1) ∧
    ((∃ r, compareOp sqrt dsName opName currOp prevOp = some r ∧
        r.direction = "improvement") ↔
      (ciBounds sqrt currOp prevOp cm pm).2 < -REGRESSION_THRESHOLD_PCT) ∧
    (compareOp sqrt dsName opName currOp prevOp = none ↔
      ¬REGRESSION_THRESHOLD_PCT < (ciBounds sqrt currOp prevOp cm pm).1 ∧
      ¬(ciBounds sqrt currOp prevOp cm pm).2 < -REGRESSION_THRESHOLD_PCT) := by
  have hle := ciBounds_le sqrt hsq currOp prevOp cm pm
  have hTpos : (0 : ℚ) < REGRESSION_THRESHOLD_PCT := by
    norm_num [REGRESSION_THRESHOLD_PCT]
  simp only [compareOp, hcm, hpm]
  rw [if_neg hskip]
  by_cases hlo : REGRESSION_THRESHOLD_PCT < (ciBounds sqrt currOp prevOp cm pm).1
  · rw [if_pos hlo]
    refine ⟨⟨fun _ => hlo, fun _ => ⟨_, rfl, rfl⟩⟩, ?_, ?_⟩
    · constructor
      · rintro ⟨r, hr, hdir⟩
        cases hr
        exact absurd hdir (by simp)
      · intro hhi
        exact absurd hhi (by intro hhi2; linarith)
    · constructor
      · intro h
        exact absurd h (by simp)
      · rintro ⟨hn, _⟩
        exact absurd hlo hn
  · rw [if_neg hlo]
    by_cases hhi : (ciBounds sqrt currOp prevOp cm pm).2 < -REGRESSION_THRESHOLD_PCT
    · rw [if_pos hhi]
      refine ⟨?_, ⟨fun _ => hhi, fun _ => ⟨_, rfl, rfl⟩⟩, ?_⟩
      · constructor
        · rintro ⟨r, hr, hdir⟩
          cases hr
          exact absurd hdir (by simp)
        · intro h
          exact absurd h hlo
      · constructor
        · intro h
          exact absurd h (by simp)
        · rintro ⟨_, hn⟩
          exact absurd hhi hn
    · rw [if_neg hhi]
      refine ⟨?_, ?_, ⟨fun _ => ⟨hlo, hhi⟩, fun _ => rfl⟩⟩
      · constructor
        · rintro ⟨r, hr, _⟩
          cases hr
        · intro h
          exact absurd h hlo
      · constructor
        · rintro ⟨r, hr, _⟩
          cases hr
        · intro h
          exact absurd h hhi

/-- Witness for the C5 theorem at the zero-variance +100% scenario. -/
theorem compareOp_significance_witness :
    (∀ x : ℚ, 0 ≤ sqrtQ x) ∧
    zeroVarCurrOp.mean_ns = some 200 ∧ zeroVarPrevOp.mean_ns = some 100 ∧
    ¬((100 : ℚ) = 0 ∨ zeroVarCurrOp.iterations.getD 0 ≤ 1 ∨
        zeroVarPrevOp.iterations.getD 0 ≤ 1) ∧
    ((∃ r, compareOp sqrtQ "wide" "deserialize" zeroVarCurrOp zeroVarPrevOp =
          some r ∧ r.direction = "regression") ↔
      REGRESSION_THRESHOLD_PCT <
        (ciBounds sqrtQ zeroVarCurrOp zeroVarPrevOp 200 100).1) :=
  ⟨sqrtQ_nonneg, rfl, rfl, by norm_num [zeroVarCurrOp, zeroVarPrevOp],
   (compareOp_significance sqrtQ sqrtQ_nonneg "wide" "deserialize" zeroVarCurrOp
      zeroVarPrevOp 200 100 rfl rfl
      (by norm_num [zeroVarCurrOp, zeroVarPrevOp])).1⟩

/-! ## C7 — validator machinery -/

theorem validate_fold_mem (datasets : List (String × J)) :
    ∀ (init : List String × Nat) (x : String),
      (x ∈ init.1 ∨ ∃ p, p ∈ datasets ∧ x ∈ (datasetErrors p.1 p.2).1) →
      x ∈ (datasets.foldl (fun acc p =>
          (acc.1 ++ (datasetErrors p.1 p.2).1, acc.2 + (datasetErrors p.1 p.2).2))
        init).1 := by
  induction datasets with
  | nil =>
    intro init x h
    rcases h with h | ⟨p, hp, _⟩
    · simpa using h
    · simp at hp
  | cons q t ih =>
    intro init x h
    rw [List.foldl_cons]
    apply ih
    rcases h with h | ⟨p, hp, hx⟩
    · exact Or.inl (List.mem_append_left _ h)
    · rcases List.mem_cons.mp hp with rfl | hp2
      · exact Or.inl (List.mem_append_right _ hx)
      · exact Or.inr ⟨p, hp2, hx⟩

theorem mem_validate_report (report : J) (ds : List (String × J))
    (dsName : String) (dsEntry : J) (x : String)
    (hd : hasDatasets report = some ds) (hmem : (dsName, dsEntry) ∈ ds)
    (hx : x ∈ (datasetErrors dsName dsEntry).1) :
    x ∈ validate_report report := by
  unfold hasDatasets at hd
  rcases hg : jGetField report "datasets" with _ | v
  · rw [hg] at hd
    exact absurd hd (by simp)
  · rw [hg] at hd
    cases v with
    | obj ds2 =>
      have h2 : ds2 = ds := by simpa using hd
      subst h2
      simp only [validate_report, hg]
      have hne : ¬ ds2.isEmpty = true := by
        cases ds2
        · simp at hmem
        · simp
      rw [if_neg hne]
      have hfold := validate_fold_mem ds2 ([], 0) x
        (Or.inr ⟨(dsName, dsEntry), hmem, hx⟩)
      split
      · exact List.mem_append_left _ hfold
      · exact hfold
    | null => exact absurd hd (by simp)
    | bool b => exact absurd hd (by simp)
    | num q => exact absurd hd (by simp)
    | str s => exact absurd hd (by simp)
    | arr l => exact absurd hd (by simp)

theorem datasetErrors_no_ops (dsName : String) (fields : List (String × J))
    (hops : ∀ ops, dget fields "operations" = some (J.obj ops) → ops = []) :
    ("dataset " ++ dsName ++ " has no operations") ∈
      (datasetErrors dsName (J.obj fields)).1 := by
  unfold datasetErrors
  rcases ho : dget fields "operations" with _ | v
  · simp [ho]
  · cases v with
    | obj ops =>
      have h0 := hops ops ho
      subst h0
      simp [ho]
    | null => simp [ho]
    | bool b => simp [ho]
    | num q => simp [ho]
    | str s => simp [ho]
    | arr l => simp [ho]

theorem mem_datasetErrors (dsName : String) (fields ops : List (String × J))
    (opKey : String) (opEntry : J) (x : String)
    (hf : dget fields "operations" = some (J.obj ops))
    (hmem : (opKey, opEntry) ∈ ops)
    (hx : x ∈ opEntryErrors dsName opKey opEntry) :
    x ∈ (datasetErrors dsName (J.obj fields)).1 := by
  simp only [datasetErrors, hf]
  have hne : ¬ ops.isEmpty = true := by
    cases ops
    · simp at hmem
    · simp
  rw [if_neg hne]
  exact (mem_foldl_append (fun p => opEntryErrors dsName p.1 p.2) ops [] x).mpr
    (Or.inr ⟨(opKey, opEntry), hmem, hx⟩)

theorem opEntryErrors_noncanonical (dsName opKey : String) (opEntry : J)
    (h : ¬ opKey = canonical_operation_id opKey) :
    ("dataset " ++ dsName ++ " contains non-canonical operation key " ++ opKey ++
      " (canonical: " ++ canonical_operation_id opKey ++ ")") ∈
      opEntryErrors dsName opKey opEntry := by
  simp only [opEntryErrors]
  rw [if_neg h]
  cases opEntry <;> simp

theorem opEntryErrors_mismatch (dsName opKey : String)
    (opFields : List (String × J)) (v : J)
    (hid : dget opFields "operation_id" = some v) (hnull : v.isNull = false)
    (hne : v.eqStr (canonical_operation_id opKey) = false) :
    ("dataset " ++ dsName ++ " operation " ++ opKey ++
      " has mismatched operation_id (expected " ++
      canonical_operation_id opKey ++ ")") ∈
      opEntryErrors dsName opKey (J.obj opFields) := by
  simp [opEntryErrors, hid, hnull, hne]

theorem opEntryErrors_missing (dsName opKey : String)
    (opFields : List (String × J))
    (h : requiredFields.filter (fun k => (dget opFields k).isNone) ≠ []) :
    ("dataset " ++ dsName ++ " operation " ++ opKey ++
      " missing required fields: " ++ String.intercalate ", "
        (requiredFields.filter (fun k => (dget opFields k).isNone))) ∈
      opEntryErrors dsName opKey (J.obj opFields) := by
  simp [opEntryErrors, List.isEmpty_iff, h]

/-! ## C7 — well-formed documents -/

/-- Well-formedness of one operation entry, exactly the conditions under
which the validator's inner loop emits nothing: canonical key, an object
entry, operation_id absent or null or equal to the canonical key, all
required fields present. -/
def wellFormedOp (opKey : String) (opEntry : J) : Bool :=
  (opKey == canonical_operation_id opKey) &&
  (match opEntry with
   | .obj opFields =>
     (match dget opFields "operation_id" with
      | some v => v.isNull || v.eqStr (canonical_operation_id opKey)
      | none => true) &&
     requiredFields.all (fun k => (dget opFields k).isSome)
   | _ => false)

/-- Well-formedness of an operations field value: a nonempty object of
well-formed entries. -/
def wellFormedOpsOf : Option J → Bool
  | some (.obj ops) => !ops.isEmpty && ops.all (fun p => wellFormedOp p.1 p.2)
  | _ => false

/-- Well-formedness of one dataset: an object with a nonempty operations
object of well-formed entries. -/
def wellFormedDataset (entry : J) : Bool :=
  match entry with
  | .obj fields => wellFormedOpsOf (dget fields "operations")
  | _ => false

/-- Well-formedness of a whole report document. -/
def wellFormedReport (report : J) : Bool :=
  match hasDatasets report with
  | some ds => !ds.isEmpty && ds.all (fun p => wellFormedDataset p.2)
  | none => false

theorem opEntryErrors_nil (dsName opKey : String) (opEntry : J)
    (h : wellFormedOp opKey opEntry = true) :
    opEntryErrors dsName opKey opEntry = [] := by
  unfold wellFormedOp at h
  simp only [Bool.and_eq_true, beq_iff_eq] at h
  obtain ⟨hkey, hrest⟩ := h
  simp only [opEntryErrors]
  rw [if_pos hkey]
  cases opEntry with
  | obj opFields =>
    simp only [Bool.and_eq_true] at hrest
    obtain ⟨hid, hreq⟩ := hrest
    have hmiss : requiredFields.filter (fun k => (dget opFields k).isNone) = [] := by
      rw [List.filter_eq_nil_iff]
      intro k hk
      have hs := List.all_eq_true.mp hreq k hk
      rcases hd2 : dget opFields k with _ | w
      · rw [hd2] at hs
        simp at hs
      · simp [hd2]
    rcases hv : dget opFields "operation_id" with _ | v
    · simp [hv, hmiss]
    · rw [hv] at hid
      rcases (show v.isNull = true ∨ v.eqStr (canonical_operation_id opKey) = true by
        simpa using hid) with hnull | heqs
      · simp [hv, hnull, hmiss]
      · simp [hv, heqs, hmiss]
  | null => simp at hrest
  | bool b => simp at hrest
  | num q => simp at hrest
  | str s => simp at hrest
  | arr l => simp at hrest

theorem datasetErrors_nil (dsName : String) (entry : J)
    (h : wellFormedDataset entry = true) :
    (datasetErrors dsName entry).1 = [] ∧ 0 < (datasetErrors dsName entry).2 := by
  cases entry with
  | obj fields =>
    simp only [wellFormedDataset] at h
    rcases ho : dget fields "operations" with _ | v
    · rw [ho] at h
      simp [wellFormedOpsOf] at h
    · rw [ho] at h
      cases v with
      | obj ops =>
        simp only [wellFormedOpsOf, Bool.and_eq_true] at h
        obtain ⟨hne, hall⟩ := h
        simp only [datasetErrors, ho]
        rw [if_neg (by simpa using hne)]
        constructor
        · apply List.eq_nil_iff_forall_not_mem.mpr
          intro x hx
          rcases (mem_foldl_append (fun p => opEntryErrors dsName p.1 p.2)
              ops [] x).mp hx with h2 | ⟨p, hp, hx2⟩
          · simp at h2
          · rw [opEntryErrors_nil dsName p.1 p.2
              (by simpa using List.all_eq_true.mp hall p hp)] at hx2
            simp at hx2
        · cases ops
          · simp at hne
          · simp
      | null => simp [wellFormedOpsOf] at h
      | bool b => simp [wellFormedOpsOf] at h
      | num q => simp [wellFormedOpsOf] at h
      | str s => simp [wellFormedOpsOf] at h
      | arr l => simp [wellFormedOpsOf] at h
  | null => simp [wellFormedDataset] at h
  | bool b => simp [wellFormedDataset] at h
  | num q => simp [wellFormedDataset] at h
  | str s => simp [wellFormedDataset] at h
  | arr l => simp [wellFormedDataset] at h

theorem validate_fold_nil :
    ∀ (datasets : List (String × J)),
      (∀ p ∈ datasets,
        (datasetErrors p.1 p.2).1 = [] ∧ 0 < (datasetErrors p.1 p.2).2) →
      ∀ init : List String × Nat,
        (datasets.foldl (fun acc p =>
            (acc.1 ++ (datasetErrors p.1 p.2).1, acc.2 + (datasetErrors p.1 p.2).2))
          init).1 = init.1 ∧
        init.2 ≤ (datasets.foldl (fun acc p =>
            (acc.1 ++ (datasetErrors p.1 p.2).1, acc.2 + (datasetErrors p.1 p.2).2))
          init).2 ∧
        (datasets ≠ [] → init.2 < (datasets.foldl (fun acc p =>
            (acc.1 ++ (datasetErrors p.1 p.2).1, acc.2 + (datasetErrors p.1 p.2).2))
          init).2) := by
  intro datasets
  induction datasets with
  | nil =>
    intro _ init
    exact ⟨rfl, le_refl _, fun hc => absurd rfl hc⟩
  | cons q t ih =>
    intro h init
    rw [List.foldl_cons]
    obtain ⟨hq1, hq2⟩ := h q (List.mem_cons_self q t)
    obtain ⟨ih1, ih2, _⟩ :=
      ih (fun p hp => h p (List.mem_cons_of_mem q hp))
        (init.1 ++ (datasetErrors q.1 q.2).1, init.2 + (datasetErrors q.1 q.2).2)
    refine ⟨?_, ?_, ?_⟩
    · rw [ih1]
      simp [hq1]
    · calc init.2 ≤ init.2 + (datasetErrors q.1 q.2).2 := Nat.le_add_right _ _
        _ ≤ _ := ih2
    · intro _
      calc init.2 < init.2 + (datasetErrors q.1 q.2).2 := by omega
        _ ≤ _ := ih2

theorem validate_report_nil (report : J) (h : wellFormedReport report = true) :
    validate_report report = [] := by
  unfold wellFormedReport at h
  rcases hd : hasDatasets report with _ | ds
  · rw [hd] at h
    simp at h
  · rw [hd] at h
    simp only [Bool.and_eq_true] at h
    obtain ⟨hne, hall⟩ := h
    unfold hasDatasets at hd
    rcases hg : jGetField report "datasets" with _ | v
    · rw [hg] at hd
      exact absurd hd (by simp)
    · rw [hg] at hd
      cases v with
      | obj ds2 =>
        have h2 : ds2 = ds := by simpa using hd
        subst h2
        simp only [validate_report, hg]
        rw [if_neg (by simpa using hne)]
        have hdsall : ∀ p ∈ ds2,
            (datasetErrors p.1 p.2).1 = [] ∧ 0 < (datasetErrors p.1 p.2).2 := by
          intro p hp
          exact datasetErrors_nil p.1 p.2
            (by simpa using List.all_eq_true.mp hall p hp)
        obtain ⟨h1, _, h3⟩ := validate_fold_nil ds2 hdsall ([], 0)
        have hne2 : ds2 ≠ [] := by
          cases ds2
          · simp at hne
          · simp
        have hpos := h3 hne2
        rw [if_neg (by omega)]
        exact h1
      | null => exact absurd hd (by simp)
      | bool b => exact absurd hd (by simp)
      | num q => exact absurd hd (by simp)
      | str s => exact absurd hd (by simp)
      | arr l => exact absurd hd (by simp)

theorem validate_report_no_datasets (report : J)
    (h : hasDatasets report = none ∨ hasDatasets report = some []) :
    validate_report report = ["report must contain at least one dataset"] := by
  unfold hasDatasets at h
  unfold validate_report
  rcases hg : jGetField report "datasets" with _ | v
  · rfl
  · rw [hg] at h
    cases v with
    | obj ds =>
      have hds : ds = [] := by
        rcases h with h | h
        · exact absurd h (by simp)
        · simpa using h
      subst hds
      rfl
    | null => rfl
    | bool b => rfl
    | num q => rfl
    | str s => rfl
    | arr l => rfl

/-! ## C7 — the claim theorem and concrete documents -/

/-- C7: the validator emits one independent problem string per violation —
(1) a document without a nonempty datasets object yields exactly the single
no-dataset problem; (2) a dataset object without a nonempty operations
object contributes its own has-no-operations problem string; (3) a
non-canonical operation key contributes its own problem string; (4) a
present non-null operation_id differing from the key's canonical form
contributes its own problem string; (5) an operation entry missing required
fields contributes its own problem string naming exactly the fields missing
from that entry — and (6) a well-formed document yields the empty problem
list. -/
theorem validate_report_flags_violations :
    (∀ report : J,
      hasDatasets report = none ∨ hasDatasets report = some [] →
      validate_report report = ["report must contain at least one dataset"]) ∧
    (∀ (report : J) (ds : List (String × J)) (dsName : String)
        (fields : List (String × J)),
      hasDatasets report = some ds → (dsName, J.obj fields) ∈ ds →
      (∀ ops, dget fields "operations" = some (J.obj ops) → ops = []) →
      ("dataset " ++ dsName ++ " has no operations") ∈ validate_report report) ∧
    (∀ (report : J) (ds : List (String × J)) (dsName : String)
        (fields ops : List (String × J)) (opKey : String) (opEntry : J),
      hasDatasets report = some ds → (dsName, J.obj fields) ∈ ds →
      dget fields "operations" = some (J.obj ops) → (opKey, opEntry) ∈ ops →
      ¬ opKey = canonical_operation_id opKey →
      ("dataset " ++ dsName ++ " contains non-canonical operation key " ++ opKey ++
        " (canonical: " ++ canonical_operation_id opKey ++ ")") ∈
        validate_report report) ∧
    (∀ (report : J) (ds : List (String × J)) (dsName : String)
        (fields ops opFields : List (String × J)) (opKey : String) (v : J),
      hasDatasets report = some ds → (dsName, J.obj fields) ∈ ds →
      dget fields "operations" = some (J.obj ops) →
      (opKey, J.obj opFields) ∈ ops →
      dget opFields "operation_id" = some v → v.isNull = false →
      v.eqStr (canonical_operation_id opKey) = false →
      ("dataset " ++ dsName ++ " operation " ++ opKey ++
        " has mismatched operation_id (expected " ++
        canonical_operation_id opKey ++ ")") ∈ validate_report report) ∧
    (∀ (report : J) (ds : List (String × J)) (dsName : String)
        (fields ops opFields : List (String × J)) (opKey : String),
      hasDatasets report = some ds → (dsName, J.obj fields) ∈ ds →
      dget fields "operations" = some (J.obj ops) →
      (opKey, J.obj opFields) ∈ ops →
      requiredFields.filter (fun k => (dget opFields k).isNone) ≠ [] →
      ("dataset " ++ dsName ++ " operation " ++ opKey ++
        " missing required fields: " ++ String.intercalate ", "
          (requiredFields.filter (fun k => (dget opFields k).isNone))) ∈
        validate_report report) ∧
    (∀ report : J, wellFormedReport report = true →
      validate_report report = []) := by
  refine ⟨validate_report_no_datasets, ?_, ?_, ?_, ?_, validate_report_nil⟩
  · intro report ds dsName fields hd hmem hops
    exact mem_validate_report report ds dsName (J.obj fields) _ hd hmem
      (datasetErrors_no_ops dsName fields hops)
  · intro report ds dsName fields ops opKey opEntry hd hmem hf hop hkey
    exact mem_validate_report report ds dsName (J.obj fields) _ hd hmem
      (mem_datasetErrors dsName fields ops opKey opEntry _ hf hop
        (opEntryErrors_noncanonical dsName opKey opEntry hkey))
  · intro report ds dsName fields ops opFields opKey v hd hmem hf hop hid hnull hne
    exact mem_validate_report report ds dsName (J.obj fields) _ hd hmem
      (mem_datasetErrors dsName fields ops opKey (J.obj opFields) _ hf hop
        (opEntryErrors_mismatch dsName opKey opFields v hid hnull hne))
  · intro report ds dsName fields ops opFields opKey hd hmem hf hop hmiss
    exact mem_validate_report report ds dsName (J.obj fields) _ hd hmem
      (mem_datasetErrors dsName fields ops opKey (J.obj opFields) _ hf hop
        (opEntryErrors_missing dsName opKey opFields hmiss))

/-- Fully-populated operation entry fields of a well-formed document. -/
def goodOpFields : List (String × J) :=
  [("operation_id", J.str "deserialize"), ("operation_track", J.str "core"),
   ("sample_count", J.num 10),
   ("measurement_semantics", J.str "mean_ns_per_operation"),
   ("failure_state", J.str "ok"), ("mean_ns", J.num 100)]

/-- A well-formed report document. -/
def goodReport : J :=
  J.obj [("datasets", J.obj [("wide", J.obj
    [("operations", J.obj [("deserialize", J.obj goodOpFields)])])])]

/-- Dataset fields whose operations object is empty. -/
def emptyOpsDsFields : List (String × J) := [("operations", J.obj [])]

/-- Report with one dataset carrying an empty operations object. -/
def emptyOpsReport : J :=
  J.obj [("datasets", J.obj [("wide", J.obj emptyOpsDsFields)])]

/-- Dataset fields with a non-canonical operation key. -/
def nonCanonDsFields : List (String × J) :=
  [("operations", J.obj [("deserializeXml", J.obj goodOpFields)])]

/-- Report with one non-canonically keyed operation. -/
def nonCanonReport : J :=
  J.obj [("datasets", J.obj [("wide", J.obj nonCanonDsFields)])]

/-- Operation entry fields with a mismatched operation_id and most required
fields missing. -/
def mismatchOpFields : List (String × J) := [("operation_id", J.str "serialize")]

/-- Dataset fields around `mismatchOpFields`. -/
def mismatchDsFields : List (String × J) :=
  [("operations", J.obj [("deserialize", J.obj mismatchOpFields)])]

/-- Report with a mismatched operation_id and missing required fields. -/
def mismatchReport : J :=
  J.obj [("datasets", J.obj [("wide", J.obj mismatchDsFields)])]

/-- Witness for the C7 theorem: each clause applied to a concrete
document. -/
theorem validate_report_flags_violations_witness :
    validate_report (J.obj []) = ["report must contain at least one dataset"] ∧
    ("dataset " ++ "wide" ++ " has no operations") ∈
      validate_report emptyOpsReport ∧
    ("dataset " ++ "wide" ++ " contains non-canonical operation key " ++
      "deserializeXml" ++ " (canonical: " ++
      canonical_operation_id "deserializeXml" ++ ")") ∈
      validate_report nonCanonReport ∧
    ("dataset " ++ "wide" ++ " operation " ++ "deserialize" ++
      " has mismatched operation_id (expected " ++
      canonical_operation_id "deserialize" ++ ")") ∈
      validate_report mismatchReport ∧
    ("dataset " ++ "wide" ++ " operation " ++ "deserialize" ++
      " missing required fields: " ++ String.intercalate ", "
        (requiredFields.filter (fun k => (dget mismatchOpFields k).isNone))) ∈
      validate_report mismatchReport ∧
    validate_report goodReport = [] :=
  ⟨validate_report_flags_violations.1 (J.obj []) (Or.inl rfl),
   validate_report_flags_violations.2.1 emptyOpsReport
     [("wide", J.obj emptyOpsDsFields)] "wide" emptyOpsDsFields rfl
     (List.mem_singleton_self _)
     (by intro ops h; simpa [emptyOpsDsFields, dget, eq_comm] using h),
   validate_report_flags_violations.2.2.1 nonCanonReport
     [("wide", J.obj nonCanonDsFields)] "wide" nonCanonDsFields
     [("deserializeXml", J.obj goodOpFields)] "deserializeXml"
     (J.obj goodOpFields) rfl (List.mem_singleton_self _) rfl
     (List.mem_singleton_self _) (by decide),
   validate_report_flags_violations.2.2.2.1 mismatchReport
     [("wide", J.obj mismatchDsFields)] "wide" mismatchDsFields
     [("deserialize", J.obj mismatchOpFields)] mismatchOpFields "deserialize"
     (J.str "serialize") rfl (List.mem_singleton_self _) rfl
     (List.mem_singleton_self _) rfl rfl (by decide),
   validate_report_flags_violations.2.2.2.2.1 mismatchReport
     [("wide", J.obj mismatchDsFields)] "wide" mismatchDsFields
     [("deserialize", J.obj mismatchOpFields)] mismatchOpFields "deserialize"
     rfl (List.mem_singleton_self _) rfl (List.mem_singleton_self _) (by decide),
   validate_report_flags_violations.2.2.2.2.2 goodReport (by decide)⟩

end AasObservatory
